import Mathlib

/-!
Shallow embedding of the `httpxxray` package (gogama/aws-xray-httpx): the
X-Ray lifecycle handler that maps a resilient HTTP execution's lifecycle
events onto a tree of X-Ray (sub)segments, plus its per-attempt state
store and its pure metadata/classification helpers.

Modelling conventions:
* Go contexts are modelled by the single observable fact the handler reads
  from them: the segment attached to the context (`Option Segment`).
* Go `error` values are modelled as `Option String` (`none` = nil error).
* A Go panic is modelled as an explicit outcome constructor carrying the
  panic message.  A Go `defer seg.Close(err)` runs during a panic unwind,
  so the panicking outcome still carries the closed segment.
* Machine integers are modelled as `Int`/`Nat`; Go's `/` on `int`
  truncates toward zero, which is `Int.tdiv` (not Lean's `/` on `Int`).
* The external X-Ray SDK types (`xray.Segment`, `xray.HTTPSubsegments`)
  are modelled by the fields and operations the handler uses; a segment's
  mutex is a no-op in this sequential model.
-/

namespace Httpxxray

/-- Digit accumulation for the decimal parser underlying `strconv.Atoi`. -/
def digitsToNat (cs : List Char) : Nat :=
  cs.foldl (fun n c => 10 * n + (c.toNat - 48)) 0

/-- Errors of Go `strconv.Atoi`: `malformed` models ErrSyntax (the input
is not a well-formed optionally-signed decimal), `outOfRange` models
ErrRange (well formed but outside the 64-bit int range). -/
inductive AtoiErr where
  | malformed
  | outOfRange
deriving DecidableEq, Repr

/-- Go's math.MaxInt64 (2^63 - 1), the positive saturation bound of
`strconv.Atoi` on a 64-bit platform. -/
def maxInt64 : Int := 9223372036854775807

/-- Go's math.MinInt64 (-2^63), the negative saturation bound of
`strconv.Atoi` on a 64-bit platform. -/
def minInt64 : Int := -9223372036854775808

/-- Model of Go `strconv.Atoi` on a 64-bit platform, returning value and
error like the Go function: an optional `+`/`-` sign followed by at
least one decimal digit parses to its value when that value fits in a
64-bit int; a well-formed value outside that range saturates to
MaxInt64/MinInt64 with a range error (the caller in scope discards the
error and keeps the saturated value, exactly as the Go code's
`respData.ContentLength, _ = strconv.Atoi(...)` does); any other shape
is a syntax error with value 0. -/
def goAtoi (s : String) : Int × Option AtoiErr :=
  match s.toList with
  | [] => (0, some AtoiErr.malformed)
  | c :: rest =>
    let signed : Bool × List Char :=
      if c = '-' then (true, rest)
      else if c = '+' then (false, rest)
      else (false, c :: rest)
    let ds := signed.2
    if ds ≠ [] ∧ ds.all (fun d => d.isDigit) then
      let n : Int := Int.ofNat (digitsToNat ds)
      let v : Int := if signed.1 then -n else n
      if v > maxInt64 then (maxInt64, some AtoiErr.outOfRange)
      else if v < minInt64 then (minInt64, some AtoiErr.outOfRange)
      else (v, none)
    else (0, some AtoiErr.malformed)

/-- The fields of `net/url.URL` that the handler reads or writes. -/
structure URL where
  scheme : String
  host : String
  path : String
  rawQuery : String
deriving DecidableEq, Repr

/-- Model of `url.URL.String()` restricted to the modelled fields: the
query part (`?` + RawQuery) is rendered exactly when RawQuery is
non-empty. -/
def urlString (u : URL) : String :=
  u.scheme ++ "://" ++ u.host ++ u.path ++
    (if u.rawQuery = "" then "" else "?" ++ u.rawQuery)

/-- Source: `stripQuery` — blank out the query string of a (by-value)
copy of the URL and render it. -/
def stripQuery (u : URL) : String :=
  urlString { u with rawQuery := "" }

/-- A metadata value the handler attaches to a segment. -/
inductive MetaValue where
  | int (n : Int)
  | bool (b : Bool)
deriving DecidableEq, Repr

/-- Model of `xray.Segment`: the fields the handler touches.  `closed`
is `none` while the segment is in progress and `some err` once
`Close(err)` has run (`err = none` models a nil closing error). -/
structure Segment where
  name : String
  parentName : Option String
  segNamespace : String
  error : Bool
  fault : Bool
  throttle : Bool
  httpStatus : Int
  httpContentLength : Int
  reqMethod : String
  reqURL : String
  metadata : List ((String × String) × MetaValue)
  closed : Option (Option String)
deriving DecidableEq, Repr

/-- Model of `xray.Segment.Close(err)`. -/
def closeSegment (seg : Segment) (err : Option String) : Segment :=
  { seg with closed := some err }

/-- Model of `xray.Segment.AddMetadataToNamespace(ns, key, value)`: the
SDK stores metadata in a map keyed by namespace and key, so setting a
key overwrites any previous value under that key. -/
def addMetadataToNamespace (seg : Segment) (ns key : String) (v : MetaValue) :
    Segment :=
  { seg with metadata :=
      ((ns, key), v) :: seg.metadata.filter (fun p => p.1 ≠ (ns, key)) }

/-- Look up a metadata value on a segment by namespace and key. -/
def metaLookup (seg : Segment) (ns key : String) : Option MetaValue :=
  (seg.metadata.find? (fun p => p.1 = (ns, key))).map (fun p => p.2)

/-- Model of `http.Header.Get`: first value for the key, `""` if the
header is absent (keys are taken as already canonicalized). -/
def headerGet (hs : List (String × String)) (k : String) : String :=
  match hs.find? (fun p => p.1 = k) with
  | some p => p.2
  | none => ""

/-- Model of `http.Header.Set`: replace any existing values for the key. -/
def headerSet (hs : List (String × String)) (k v : String) :
    List (String × String) :=
  (k, v) :: hs.filter (fun p => p.1 ≠ k)

/-- The fields of `*http.Response` the handler reads. -/
structure HTTPResponse where
  statusCode : Int
  headers : List (String × String)
deriving DecidableEq, Repr

/-- Source: `setSegmentHTTPResponse` — nil response is a no-op; otherwise
record status and `Content-Length` (the `strconv.Atoi` error is
discarded and its returned value kept: 0 for a missing or malformed
header, the saturated bound for an out-of-range one), then classify:
`switch resp.StatusCode / 100` with `case 4` setting the error flag
(plus the throttle flag exactly when the status is 429) and `case 5`
setting the fault flag. -/
def setSegmentHTTPResponse (seg : Segment) (resp : Option HTTPResponse) :
    Segment :=
  match resp with
  | none => seg
  | some r =>
    let seg := { seg with
      httpStatus := r.statusCode,
      httpContentLength := (goAtoi (headerGet r.headers "Content-Length")).1 }
    if Int.tdiv r.statusCode 100 = 4 then
      let seg := { seg with error := true }
      if r.statusCode = 429 then { seg with throttle := true } else seg
    else if Int.tdiv r.statusCode 100 = 5 then
      { seg with fault := true }
    else seg

/-- Source: `setSegmentBodyLen` — a nil body (attempt errored before the
body could be read) adds nothing; a non-nil body (even empty) adds its
length as `httpx`/`body_length` metadata. -/
def setSegmentBodyLen (seg : Segment) (body : Option (List Nat)) : Segment :=
  match body with
  | none => seg
  | some bs => addMetadataToNamespace seg "httpx" "body_length" (.int bs.length)

/-- Source: `setSegmentExecutionMetadata` — record the attempts and waves
counters. -/
def setSegmentExecutionMetadata (seg : Segment) (attempts waves : Int) :
    Segment :=
  addMetadataToNamespace
    (addMetadataToNamespace seg "httpx" "attempts" (.int attempts))
    "httpx" "waves" (.int waves)

/-- Source: `setSegmentAttemptMetadata` — record the attempt index. -/
def setSegmentAttemptMetadata (seg : Segment) (attempt : Int) : Segment :=
  addMetadataToNamespace seg "httpx" "attempt" (.int attempt)

/-- Opaque model of `*xray.HTTPSubsegments`, the per-attempt network-phase
instrumentation handle (`newClientTrace` binds one to the attempt's
context; the tag records which attempt context it was created from). -/
structure HTTPSubsegments where
  ctxTag : Nat
deriving DecidableEq, Repr

/-- Source: `attemptState` — per-attempt side-state; the Go zero value has
a nil `httpSubsegments` pointer, modelled as `none`. -/
structure attemptState where
  httpSubsegments : Option HTTPSubsegments
deriving DecidableEq, Repr

/-- The Go zero value `attemptState{}` (the placeholder entry). -/
def attemptStateZero : attemptState := { httpSubsegments := none }

/-- Source: `executionState` — the per-execution attempt state store, a
slice indexed by attempt number. -/
structure executionState where
  as : List attemptState
deriving DecidableEq, Repr

/-- Source: `putAttemptState` — create the store if absent; if the slice
length equals the attempt index, append one zero entry; if it is
shorter, grow to `index + 1` entries (`make` + `copy`, new tail entries
are zero values); then assign the entry at the attempt index. -/
def putAttemptState (es0 : Option executionState) (i : Nat) (a : attemptState) :
    executionState :=
  let es := match es0 with
    | none => { as := [] : executionState }
    | some es => es
  let grown :=
    if es.as.length = i then es.as ++ [attemptStateZero]
    else if es.as.length < i then
      es.as ++ List.replicate (i + 1 - es.as.length) attemptStateZero
    else es.as
  { as := grown.set i a }

/-- The message of `errors.New("httpxxray: no execution state")`. -/
def noExecStateMsg : String := "httpxxray: no execution state"

/-- The message of `fmt.Errorf("httpxxray: no attempt state %d", i)`. -/
def noAttemptStateMsg (i : Nat) : String :=
  "httpxxray: no attempt state " ++ toString i

/-- Source: `getAttemptState` — a missing store object and a store whose
slice does not reach the attempt index are two distinguishable errors. -/
def getAttemptState (es0 : Option executionState) (i : Nat) :
    Except String attemptState :=
  match es0 with
  | none => Except.error noExecStateMsg
  | some es =>
    if es.as.length ≤ i then Except.error (noAttemptStateMsg i)
    else Except.ok (es.as.getD i attemptStateZero)

/-- The fields of `*request.Plan` the handler reads, plus the segment
attached to the plan's context. -/
structure Plan where
  host : String
  url : URL
  ctxSeg : Option Segment
deriving DecidableEq, Repr

/-- The fields of `*http.Request` the handler touches, plus the segment
attached to the request's context. -/
structure Request where
  method : String
  url : URL
  headers : List (String × String)
  ctxSeg : Option Segment
deriving DecidableEq, Repr

/-- The fields of `*request.Execution` the handler touches.  `state` is
the execution's side-state bag entry under `executionStateKey`. -/
structure Execution where
  plan : Plan
  request : Request
  attempt : Nat
  wave : Nat
  response : Option HTTPResponse
  body : Option (List Nat)
  err : Option String
  state : Option executionState
deriving DecidableEq, Repr

/-- Source: `host` — the plan's explicit host, else the URL's host. -/
def host (p : Plan) : String :=
  if p.host ≠ "" then p.host else p.url.host

/-- The five lifecycle events the handler is registered for. -/
inductive Event where
  | beforeExecutionStart
  | beforeAttempt
  | afterAttempt
  | afterPlanTimeout
  | afterExecutionEnd
deriving DecidableEq, Repr

/-- `httpx.Event.Name()` for the five handled events (external httpx
library naming). -/
def eventName : Event → String
  | .beforeExecutionStart => "BeforeExecutionStart"
  | .beforeAttempt => "BeforeAttempt"
  | .afterAttempt => "AfterAttempt"
  | .afterPlanTimeout => "AfterPlanTimeout"
  | .afterExecutionEnd => "AfterExecutionEnd"

/-- Source: `logSubsegmentNotStarted` — the single diagnostic message,
built from `subsegmentNotStartedF` with the event name and host. -/
def logSubsegmentNotStarted (evt : Event) (p : Plan) : String :=
  "httpxxray: [WARN] Unable to begin X-Ray subsegment in event "
    ++ eventName evt ++ " (" ++ host p ++ ")"

/-- Model of `xray.BeginSubsegment(ctx, name)`: with no segment attached
to the context it declines (nil segment); otherwise it opens a fresh
in-progress subsegment parented to the attached segment. -/
def beginSubsegment (ctx : Option Segment) (name : String) : Option Segment :=
  match ctx with
  | none => none
  | some parent => some
    { name := name
      parentName := some parent.name
      segNamespace := ""
      error := false
      fault := false
      throttle := false
      httpStatus := 0
      httpContentLength := 0
      reqMethod := ""
      reqURL := ""
      metadata := []
      closed := none }

/-- The value of the external constant `xray.TraceIDHeaderKey`. -/
def traceIDHeaderKey : String := "X-Amzn-Trace-Id"

/-- Opaque model of `seg.DownstreamHeader().String()`: some string
derived from the segment's downstream identity. -/
def downstreamHeader (seg : Segment) : String :=
  "Parent=" ++ seg.name

/-- Outcome of the before-execution-start handler. -/
inductive BeforeExecStartOutcome where
  | skipped (logMsg : String)
  | started (e2 : Execution)
deriving DecidableEq, Repr

/-- Source: `beforeExecutionStart` — open the root subsegment on the
plan's context; on failure log and return; on success set the `remote`
namespace and store the updated context back on the plan. -/
def beforeExecutionStart (e : Execution) : BeforeExecStartOutcome :=
  match beginSubsegment e.plan.ctxSeg (host e.plan) with
  | none => .skipped (logSubsegmentNotStarted .beforeExecutionStart e.plan)
  | some seg0 =>
    let seg := { seg0 with segNamespace := "remote" }
    .started { e with plan := { e.plan with ctxSeg := some seg } }

/-- Outcome of the before-attempt handler. -/
inductive BeforeAttemptOutcome where
  | skipped (logMsg : String)
  | opened (e2 : Execution) (seg : Segment)
deriving DecidableEq, Repr

/-- Source: `beforeAttempt` — open the attempt subsegment named
`fmt.Sprintf("Attempt:%d", e.Attempt)` on the request's context; on
failure log and return without mutating the execution.  On success:
record the attempt index as metadata, create the network-phase handle
bound to the attempt context, record method and query-stripped URL on
the segment, set the downstream trace header on the request, store the
handle at the attempt index, and swap in the attempt-scoped request. -/
def beforeAttempt (e : Execution) : BeforeAttemptOutcome :=
  match beginSubsegment e.request.ctxSeg ("Attempt:" ++ toString e.attempt) with
  | none => .skipped (logSubsegmentNotStarted .beforeAttempt e.plan)
  | some seg0 =>
    let seg1 := setSegmentAttemptMetadata seg0 (Int.ofNat e.attempt)
    let hs : HTTPSubsegments := { ctxTag := e.attempt }
    let seg2 := { seg1 with
      reqMethod := e.request.method
      reqURL := stripQuery e.request.url }
    let req : Request := { e.request with
      headers := headerSet e.request.headers traceIDHeaderKey (downstreamHeader seg2)
      ctxSeg := some seg2 }
    let st := putAttemptState e.state e.attempt { httpSubsegments := some hs }
    .opened { e with request := req, state := some st } seg2

/-- Outcome of the after-attempt handler.  `panicked` carries the closed
segment because the deferred `seg.Close(e.Err)` runs during the panic
unwind.  `forwardedErr` is the error handed to the network-phase
handle's `GotConn(nil, err)` call (made exactly when the attempt ended
in error). -/
inductive AfterAttemptOutcome where
  | noop
  | panicked (msg : String) (seg : Segment)
  | completed (seg : Segment) (forwardedErr : Option String)
deriving DecidableEq, Repr

/-- Source: `afterAttempt` — no segment on the request context is a
silent no-op; with a segment, a state-store miss panics with the lookup
error; otherwise annotate HTTP outcome and body length and close with
the attempt's terminal error. -/
def afterAttempt (e : Execution) : AfterAttemptOutcome :=
  match e.request.ctxSeg with
  | none => .noop
  | some seg =>
    match getAttemptState e.state e.attempt with
    | .error msg => .panicked msg (closeSegment seg e.err)
    | .ok _ =>
      let seg := setSegmentHTTPResponse seg e.response
      let seg := setSegmentBodyLen seg e.body
      .completed (closeSegment seg e.err) e.err

/-- Source: `afterPlanTimeout` — no segment on the plan context is a
no-op; otherwise add the `httpx`/`plan_timeout` = true metadata and
nothing else (in particular the segment is not closed).  The result is
the new state of the root segment (`none` = untouched absent). -/
def afterPlanTimeout (e : Execution) : Option Segment :=
  match e.plan.ctxSeg with
  | none => none
  | some seg => some (addMetadataToNamespace seg "httpx" "plan_timeout" (.bool true))

/-- Source: `afterExecutionEnd` — no segment on the plan context is a
no-op; otherwise annotate HTTP outcome, body length and the
attempts/waves counters, then close with the execution's terminal error
(the `defer` registered first runs last).  The result is the final state
of the root segment. -/
def afterExecutionEnd (e : Execution) : Option Segment :=
  match e.plan.ctxSeg with
  | none => none
  | some seg =>
    let seg := setSegmentHTTPResponse seg e.response
    let seg := setSegmentBodyLen seg e.body
    let seg := setSegmentExecutionMetadata seg
      (Int.ofNat e.attempt + 1) (Int.ofNat e.wave + 1)
    some (closeSegment seg e.err)

/-! Concrete fixtures used by witnesses and counterexamples. -/

/-- A freshly opened segment (all flags clear, no metadata, in progress). -/
def freshSeg : Segment :=
  { name := "example.com"
    parentName := none
    segNamespace := ""
    error := false
    fault := false
    throttle := false
    httpStatus := 0
    httpContentLength := 0
    reqMethod := ""
    reqURL := ""
    metadata := []
    closed := none }

/-- A small concrete URL with a non-empty query string. -/
def sampleURL : URL :=
  { scheme := "https", host := "example.com", path := "/idx", rawQuery := "a=1" }

/-- A concrete execution at attempt 0 whose plan and request contexts
both carry `freshSeg`, with no side-state bag yet. -/
def baseExec : Execution :=
  { plan := { host := "example.com", url := sampleURL, ctxSeg := some freshSeg }
    request := { method := "GET", url := sampleURL, headers := [], ctxSeg := some freshSeg }
    attempt := 0
    wave := 0
    response := none
    body := none
    err := none
    state := none }

/-! Helper lemmas about the association-list metadata model. -/

theorem find?_filter_of_imp (l : List α) (p q : α → Bool)
    (h : ∀ x, p x = true → q x = true) : (l.filter q).find? p = l.find? p := by
  induction l with
  | nil => rfl
  | cons x xs ih =>
    by_cases hq : q x = true
    · by_cases hp : p x = true
      · simp [List.filter_cons, hq, List.find?_cons, hp]
      · simp [List.filter_cons, hq, List.find?_cons, hp, ih]
    · have hp : p x = false := by
        cases hpx : p x
        · rfl
        · exact absurd (h x hpx) hq
      simp [List.filter_cons, hq, List.find?_cons, hp, ih]

theorem metaLookup_add_same (seg : Segment) (ns key : String) (v : MetaValue) :
    metaLookup (addMetadataToNamespace seg ns key v) ns key = some v := by
  simp [metaLookup, addMetadataToNamespace, List.find?_cons]

theorem metaLookup_add_other (seg : Segment) (ns key ns2 key2 : String)
    (v : MetaValue) (h : (ns2, key2) ≠ (ns, key)) :
    metaLookup (addMetadataToNamespace seg ns key v) ns2 key2
      = metaLookup seg ns2 key2 := by
  have hd : (decide (((ns, key) : String × String) = (ns2, key2))) = false := by
    simp only [decide_eq_false_iff_not]
    exact fun hx => h (by simp [hx])
  have himp : ∀ x : (String × String) × MetaValue,
      (decide (x.1 = (ns2, key2))) = true → (decide (x.1 ≠ (ns, key))) = true := by
    intro x hx
    rw [decide_eq_true_eq] at hx
    rw [decide_eq_true_eq, hx]
    exact h
  simp only [metaLookup, addMetadataToNamespace, List.find?_cons, hd]
  rw [find?_filter_of_imp seg.metadata _ _ himp]

theorem setSegmentHTTPResponse_contentLength_eq (seg : Segment) (r : HTTPResponse) :
    (setSegmentHTTPResponse seg (some r)).httpContentLength
      = (goAtoi (headerGet r.headers "Content-Length")).1 := by
  simp only [setSegmentHTTPResponse]
  split
  · split <;> rfl
  · split <;> rfl

theorem goAtoi_shape (s : String) :
    (goAtoi s).2 = none ∨
    ((goAtoi s).1 = 0 ∧ (goAtoi s).2 = some AtoiErr.malformed) ∨
    ((goAtoi s).1 = maxInt64 ∧ (goAtoi s).2 = some AtoiErr.outOfRange) ∨
    ((goAtoi s).1 = minInt64 ∧ (goAtoi s).2 = some AtoiErr.outOfRange) := by
  simp only [goAtoi]
  repeat' split
  all_goals simp

/-! Helper lemmas about the attempt state store. -/

theorem putAttemptState_none (i : Nat) (a : attemptState) :
    putAttemptState none i a = putAttemptState (some ⟨[]⟩) i a := rfl

theorem putAttemptState_some (L : List attemptState) (i : Nat) (a : attemptState) :
    (putAttemptState (some ⟨L⟩) i a).as
      = (if L.length = i then L ++ [attemptStateZero]
         else if L.length < i then
           L ++ List.replicate (i + 1 - L.length) attemptStateZero
         else L).set i a := rfl

theorem putAttemptState_getElem_self (L : List attemptState) (i : Nat)
    (a : attemptState) :
    (putAttemptState (some ⟨L⟩) i a).as[i]? = some a := by
  rw [putAttemptState_some]
  apply List.getElem?_set_self
  rcases Nat.lt_trichotomy L.length i with h | h | h
  · rw [if_neg (by omega), if_pos h]
    simp only [List.length_append, List.length_replicate]
    omega
  · rw [if_pos h]
    simp only [List.length_append, List.length_cons, List.length_nil]
    omega
  · rw [if_neg (by omega), if_neg (by omega)]
    omega

theorem putAttemptState_getElem_ne (L : List attemptState) (i : Nat)
    (a : attemptState) (j : Nat) (hne : j ≠ i) (hj : j < L.length) :
    (putAttemptState (some ⟨L⟩) i a).as[j]? = L[j]? := by
  rw [putAttemptState_some, List.getElem?_set_ne (by omega)]
  rcases Nat.lt_trichotomy L.length i with h | h | h
  · rw [if_neg (by omega), if_pos h, List.getElem?_append_left hj]
  · rw [if_pos h, List.getElem?_append_left hj]
  · rw [if_neg (by omega), if_neg (by omega)]

theorem putAttemptState_getElem_pad (L : List attemptState) (i : Nat)
    (a : attemptState) (j : Nat) (hLj : L.length ≤ j) (hji : j < i) :
    (putAttemptState (some ⟨L⟩) i a).as[j]? = some attemptStateZero := by
  rw [putAttemptState_some, List.getElem?_set_ne (by omega)]
  have h : L.length < i := by omega
  rw [if_neg (by omega), if_pos h, List.getElem?_append_right hLj,
    List.getElem?_replicate_of_lt]
  omega

theorem getAttemptState_some_of_lt (es : executionState) (j : Nat)
    (h : j < es.as.length) :
    getAttemptState (some es) j = Except.ok (es.as.getD j attemptStateZero) := by
  simp only [getAttemptState]
  rw [if_neg (by omega)]

theorem getAttemptState_ok_elim (es : executionState) (j : Nat) (a0 : attemptState)
    (h : getAttemptState (some es) j = Except.ok a0) :
    j < es.as.length ∧ es.as.getD j attemptStateZero = a0 := by
  simp only [getAttemptState] at h
  by_cases hj : es.as.length ≤ j
  · rw [if_pos hj] at h
    cases h
  · rw [if_neg hj] at h
    exact ⟨Nat.not_le.mp hj, by injection h⟩

theorem getAttemptState_put_self (L : List attemptState) (i : Nat) (a : attemptState) :
    getAttemptState (some (putAttemptState (some ⟨L⟩) i a)) i = Except.ok a := by
  have hsome := putAttemptState_getElem_self L i a
  have hlen : i < (putAttemptState (some ⟨L⟩) i a).as.length := by
    rcases List.getElem?_eq_some_iff.mp hsome with ⟨h, -⟩
    exact h
  rw [getAttemptState_some_of_lt _ i hlen]
  rw [List.getD_eq_getElem?_getD, hsome]
  rfl

theorem getAttemptState_put_ne (L : List attemptState) (i : Nat) (a : attemptState)
    (j : Nat) (a0 : attemptState) (hne : j ≠ i)
    (h : getAttemptState (some ⟨L⟩) j = Except.ok a0) :
    getAttemptState (some (putAttemptState (some ⟨L⟩) i a)) j = Except.ok a0 := by
  obtain ⟨hj, hval⟩ := getAttemptState_ok_elim ⟨L⟩ j a0 h
  have hne2 := putAttemptState_getElem_ne L i a j hne hj
  have hsome : (putAttemptState (some ⟨L⟩) i a).as[j]? = some (L.getD j attemptStateZero) := by
    rw [hne2, List.getElem?_eq_getElem hj]
    rw [List.getD_eq_getElem?_getD, List.getElem?_eq_getElem hj]
    rfl
  have hlen : j < (putAttemptState (some ⟨L⟩) i a).as.length := by
    rcases List.getElem?_eq_some_iff.mp hsome with ⟨hh, -⟩
    exact hh
  rw [getAttemptState_some_of_lt _ j hlen]
  rw [List.getD_eq_getElem?_getD, hsome]
  simpa using hval

theorem getAttemptState_put_pad (L : List attemptState) (i : Nat) (a : attemptState)
    (j : Nat) (hLj : L.length ≤ j) (hji : j < i) :
    getAttemptState (some (putAttemptState (some ⟨L⟩) i a)) j
      = Except.ok attemptStateZero := by
  have hsome := putAttemptState_getElem_pad L i a j hLj hji
  have hlen : j < (putAttemptState (some ⟨L⟩) i a).as.length := by
    rcases List.getElem?_eq_some_iff.mp hsome with ⟨hh, -⟩
    exact hh
  rw [getAttemptState_some_of_lt _ j hlen]
  rw [List.getD_eq_getElem?_getD, hsome]
  rfl

/-! Claim theorems. -/

/-- C1: for every non-nil HTTP response with status code c, starting from
a segment with clear flags, `setSegmentHTTPResponse` sets: no flag for
c ∈ [200,399]; the error flag for c ∈ [400,499], with the throttle flag
iff c = 429; and the fault flag (error and throttle staying clear) for
c ∈ [500,599]. -/
theorem setSegmentHTTPResponse_flags (seg : Segment) (r : HTTPResponse)
    (he : seg.error = false) (hf : seg.fault = false) (ht : seg.throttle = false) :
    ((200 ≤ r.statusCode ∧ r.statusCode ≤ 399) →
      (setSegmentHTTPResponse seg (some r)).error = false ∧
      (setSegmentHTTPResponse seg (some r)).fault = false ∧
      (setSegmentHTTPResponse seg (some r)).throttle = false) ∧
    ((400 ≤ r.statusCode ∧ r.statusCode ≤ 499) →
      (setSegmentHTTPResponse seg (some r)).error = true ∧
      (setSegmentHTTPResponse seg (some r)).fault = false ∧
      ((setSegmentHTTPResponse seg (some r)).throttle = true ↔ r.statusCode = 429)) ∧
    ((500 ≤ r.statusCode ∧ r.statusCode ≤ 599) →
      (setSegmentHTTPResponse seg (some r)).fault = true ∧
      (setSegmentHTTPResponse seg (some r)).error = false ∧
      (setSegmentHTTPResponse seg (some r)).throttle = false) := by
  refine ⟨fun hr => ?_, fun hr => ?_, fun hr => ?_⟩
  all_goals
    have hd : Int.tdiv r.statusCode 100 = r.statusCode / 100 :=
      Int.tdiv_eq_ediv (by omega) (by norm_num)
  · have h4 : ¬ Int.tdiv r.statusCode 100 = 4 := by rw [hd]; omega
    have h5 : ¬ Int.tdiv r.statusCode 100 = 5 := by rw [hd]; omega
    simp only [setSegmentHTTPResponse, if_neg h4, if_neg h5]
    exact ⟨he, hf, ht⟩
  · have h4 : Int.tdiv r.statusCode 100 = 4 := by rw [hd]; omega
    by_cases h429 : r.statusCode = 429
    · simp only [setSegmentHTTPResponse, if_pos h4, if_pos h429]
      exact ⟨by simp, hf, by simp [h429]⟩
    · simp only [setSegmentHTTPResponse, if_pos h4, if_neg h429]
      exact ⟨by simp, hf, by simp [ht, h429]⟩
  · have h4 : ¬ Int.tdiv r.statusCode 100 = 4 := by rw [hd]; omega
    have h5 : Int.tdiv r.statusCode 100 = 5 := by rw [hd]; omega
    simp only [setSegmentHTTPResponse, if_neg h4, if_pos h5]
    exact ⟨by simp, he, ht⟩

/-- Witness for C1 at status 429 on a fresh segment. -/
theorem setSegmentHTTPResponse_flags_witness :
    (setSegmentHTTPResponse freshSeg (some { statusCode := 429, headers := [] })).error = true ∧
    (setSegmentHTTPResponse freshSeg (some { statusCode := 429, headers := [] })).throttle = true := by
  have h := setSegmentHTTPResponse_flags freshSeg
    { statusCode := 429, headers := [] } rfl rfl rfl
  obtain ⟨-, h4, -⟩ := h
  have h2 := h4 (by decide)
  exact ⟨h2.1, h2.2.2.mpr rfl⟩

/-- C7: `setSegmentBodyLen` on a nil body changes nothing (in particular
it never writes a body-length entry), while on a non-nil body — empty or
not — it writes `httpx`/`body_length` metadata equal to the body's byte
length, keeping nil and empty observably distinct. -/
theorem setSegmentBodyLen_cases (seg : Segment) :
    setSegmentBodyLen seg none = seg ∧
    (∀ bs : List Nat,
      metaLookup (setSegmentBodyLen seg (some bs)) "httpx" "body_length"
        = some (MetaValue.int bs.length)) ∧
    (metaLookup seg "httpx" "body_length" = none →
      metaLookup (setSegmentBodyLen seg none) "httpx" "body_length" = none) := by
  refine ⟨rfl, fun bs => ?_, fun h => h⟩
  simp [setSegmentBodyLen, metaLookup_add_same]

/-- Witness for C7: a 3-byte body annotates 3, an empty body annotates 0,
and a nil body leaves a fresh segment without the entry. -/
theorem setSegmentBodyLen_cases_witness :
    metaLookup (setSegmentBodyLen freshSeg (some [7, 8, 9])) "httpx" "body_length"
      = some (MetaValue.int 3) ∧
    metaLookup (setSegmentBodyLen freshSeg (some [])) "httpx" "body_length"
      = some (MetaValue.int 0) ∧
    metaLookup (setSegmentBodyLen freshSeg none) "httpx" "body_length" = none := by
  have h := setSegmentBodyLen_cases freshSeg
  exact ⟨h.2.1 [7, 8, 9], h.2.1 [], h.2.2 rfl⟩

/-- C9 counterexample: the header "9223372036854775808" does not parse
(`strconv.Atoi` returns a non-nil range error), yet the declared length
is not omitted: the code stores the discarded call's saturated value
9223372036854775807, not the zero value. -/
theorem setSegmentHTTPResponse_contentLength_cex :
    (goAtoi "9223372036854775808").2 ≠ none ∧
    (setSegmentHTTPResponse freshSeg
      (some { statusCode := 200,
              headers := [("Content-Length", "9223372036854775808")] })).httpContentLength
      = 9223372036854775807 ∧
    (9223372036854775807 : Int) ≠ 0 := by
  refine ⟨by decide, rfl, by decide⟩

/-- C9 (amended): for every non-nil response, `setSegmentHTTPResponse`
stores the parsed `Content-Length` value as the declared length when the
header parses without error; a missing or syntactically malformed header
leaves the field at the Go zero value 0 — the encoding of an omitted
declared length; a well-formed value outside the 64-bit int range stores
the saturated bound (MaxInt64 or MinInt64); in every case the
`strconv.Atoi` error is discarded and no error is raised (the function
is total). -/
theorem setSegmentHTTPResponse_contentLength (seg : Segment) (r : HTTPResponse) :
    (∀ n : Int, goAtoi (headerGet r.headers "Content-Length") = (n, none) →
      (setSegmentHTTPResponse seg (some r)).httpContentLength = n) ∧
    ((goAtoi (headerGet r.headers "Content-Length")).2 = some AtoiErr.malformed →
      (setSegmentHTTPResponse seg (some r)).httpContentLength = 0) ∧
    ((goAtoi (headerGet r.headers "Content-Length")).2 = some AtoiErr.outOfRange →
      (setSegmentHTTPResponse seg (some r)).httpContentLength = maxInt64 ∨
      (setSegmentHTTPResponse seg (some r)).httpContentLength = minInt64) := by
  refine ⟨?_, ?_, ?_⟩
  · intro n h
    rw [setSegmentHTTPResponse_contentLength_eq, h]
  · intro h
    rw [setSegmentHTTPResponse_contentLength_eq]
    rcases goAtoi_shape (headerGet r.headers "Content-Length") with
      h0 | ⟨h1, h2⟩ | ⟨h1, h2⟩ | ⟨h1, h2⟩
    · rw [h0] at h
      exact Option.noConfusion h
    · exact h1
    · exact absurd (h2.symm.trans h) (by decide)
    · exact absurd (h2.symm.trans h) (by decide)
  · intro h
    rw [setSegmentHTTPResponse_contentLength_eq]
    rcases goAtoi_shape (headerGet r.headers "Content-Length") with
      h0 | ⟨h1, h2⟩ | ⟨h1, h2⟩ | ⟨h1, h2⟩
    · rw [h0] at h
      exact Option.noConfusion h
    · exact absurd (h2.symm.trans h) (by decide)
    · exact Or.inl h1
    · exact Or.inr h1

/-- Witness for C9 (amended): header "42" records 42; header "xyz" and a
missing header record the zero value; the overflowing header
"9223372036854775808" records the saturated MaxInt64. -/
theorem setSegmentHTTPResponse_contentLength_witness :
    (setSegmentHTTPResponse freshSeg
      (some { statusCode := 200, headers := [("Content-Length", "42")] })).httpContentLength = 42 ∧
    (setSegmentHTTPResponse freshSeg
      (some { statusCode := 200, headers := [("Content-Length", "xyz")] })).httpContentLength = 0 ∧
    (setSegmentHTTPResponse freshSeg
      (some { statusCode := 200, headers := [] })).httpContentLength = 0 ∧
    (setSegmentHTTPResponse freshSeg
      (some { statusCode := 200,
              headers := [("Content-Length", "9223372036854775808")] })).httpContentLength
      = maxInt64 := by
  refine ⟨(setSegmentHTTPResponse_contentLength freshSeg _).1 42 (by decide),
    (setSegmentHTTPResponse_contentLength freshSeg _).2.1 (by decide),
    (setSegmentHTTPResponse_contentLength freshSeg _).2.1 (by decide),
    ?_⟩
  rcases (setSegmentHTTPResponse_contentLength freshSeg
      { statusCode := 200,
        headers := [("Content-Length", "9223372036854775808")] }).2.2 (by decide) with
    hmax | hmin
  · exact hmax
  · exact absurd hmin (by decide)

/-- C2: for every store state, attempt index i and handle h, after
`putAttemptState` at i with h, `getAttemptState` at i succeeds with h;
every index j ≠ i that was already populated keeps its entry; and every
index below i whose lookup previously failed becomes a valid placeholder
entry (found, absent handle) rather than a lookup failure. -/
theorem putAttemptState_spec (es : Option executionState) (i : Nat) (a : attemptState) :
    getAttemptState (some (putAttemptState es i a)) i = Except.ok a ∧
    (∀ j a0, j ≠ i → getAttemptState es j = Except.ok a0 →
      getAttemptState (some (putAttemptState es i a)) j = Except.ok a0) ∧
    (∀ j, j < i → (∃ msg, getAttemptState es j = Except.error msg) →
      getAttemptState (some (putAttemptState es i a)) j = Except.ok attemptStateZero) := by
  cases es with
  | none =>
    rw [putAttemptState_none]
    refine ⟨getAttemptState_put_self [] i a, ?_, ?_⟩
    · intro j a0 hne h
      simp only [getAttemptState] at h
      cases h
    · intro j hj _
      exact getAttemptState_put_pad [] i a j (Nat.zero_le j) hj
  | some s =>
    obtain ⟨L⟩ := s
    refine ⟨getAttemptState_put_self L i a, ?_, ?_⟩
    · intro j a0 hne h
      exact getAttemptState_put_ne L i a j a0 hne h
    · intro j hj hmiss
      obtain ⟨msg, hm⟩ := hmiss
      have hLj : L.length ≤ j := by
        by_contra hlt
        rw [getAttemptState_some_of_lt ⟨L⟩ j (Nat.not_le.mp hlt)] at hm
        cases hm
      exact getAttemptState_put_pad L i a j hLj hj

/-- Witness for C2: a store holding one handle at index 0; putting at
index 3 stores there, keeps index 0, and turns indices 1 and 2 into
placeholders. -/
theorem putAttemptState_spec_witness :
    getAttemptState (some (putAttemptState (some ⟨[⟨some ⟨7⟩⟩]⟩) 3 ⟨some ⟨9⟩⟩)) 3
      = Except.ok ⟨some ⟨9⟩⟩ ∧
    getAttemptState (some (putAttemptState (some ⟨[⟨some ⟨7⟩⟩]⟩) 3 ⟨some ⟨9⟩⟩)) 0
      = Except.ok ⟨some ⟨7⟩⟩ ∧
    getAttemptState (some (putAttemptState (some ⟨[⟨some ⟨7⟩⟩]⟩) 3 ⟨some ⟨9⟩⟩)) 1
      = Except.ok attemptStateZero := by
  have h := putAttemptState_spec (some ⟨[⟨some ⟨7⟩⟩]⟩) 3 ⟨some ⟨9⟩⟩
  exact ⟨h.1, h.2.1 0 ⟨some ⟨7⟩⟩ (by decide) rfl,
    h.2.2 1 (by decide) ⟨noAttemptStateMsg 1, rfl⟩⟩

/-- C3: for every after-attempt event where a span is attached to the
request's context but the side-state lookup fails, the handler panics
rather than continuing, with two distinguishable messages: a missing
execution-state object panics with "httpxxray: no execution state", and
a present store with no entry at the attempt index i panics with
"httpxxray: no attempt state i", which names the missing index. -/
theorem afterAttempt_state_miss_panics (e : Execution) (seg : Segment)
    (h : e.request.ctxSeg = some seg) :
    (e.state = none →
      afterAttempt e
        = AfterAttemptOutcome.panicked noExecStateMsg (closeSegment seg e.err)) ∧
    (∀ es, e.state = some es → es.as.length ≤ e.attempt →
      afterAttempt e
        = AfterAttemptOutcome.panicked (noAttemptStateMsg e.attempt)
            (closeSegment seg e.err)) ∧
    (∀ i : Nat, noAttemptStateMsg i ≠ noExecStateMsg) := by
  refine ⟨?_, ?_, ?_⟩
  · intro h0
    simp [afterAttempt, h, h0, getAttemptState]
  · intro es hes hlen
    simp [afterAttempt, h, hes, getAttemptState, if_pos hlen]
  · intro i hne
    have hd : ("httpxxray: no attempt state ".data ++ (toString i).data)
        = "httpxxray: no execution state".data := by
      rw [← String.data_append]
      exact congrArg String.data hne
    have h14 : ("httpxxray: no attempt state ".data ++ (toString i).data)[14]?
        = "httpxxray: no execution state".data[14]? := by rw [hd]
    rw [List.getElem?_append_left (by decide)] at h14
    exact absurd h14 (by decide)

/-- Witness for C3: with a span present, a missing store panics with the
no-execution-state message, an empty store at attempt 0 panics with the
no-attempt-state-0 message, and the two messages differ. -/
theorem afterAttempt_state_miss_panics_witness :
    afterAttempt baseExec
      = AfterAttemptOutcome.panicked noExecStateMsg (closeSegment freshSeg none) ∧
    afterAttempt { baseExec with state := some ⟨[]⟩ }
      = AfterAttemptOutcome.panicked (noAttemptStateMsg 0) (closeSegment freshSeg none) ∧
    noAttemptStateMsg 0 ≠ noExecStateMsg := by
  have h1 := afterAttempt_state_miss_panics baseExec freshSeg rfl
  have h2 := afterAttempt_state_miss_panics { baseExec with state := some ⟨[]⟩ }
    freshSeg rfl
  exact ⟨h1.1 rfl, h2.2.1 ⟨[]⟩ rfl (by decide), h1.2.2 0⟩

/-- C4: for every after-attempt event with no span attached to the
request's context, the handler is a silent no-op — no panic, no log (it
takes no logger at all), no span closed — and the outcome is the same
whatever the attempt state store holds, so the store is neither read nor
modified. -/
theorem afterAttempt_no_span_noop (e : Execution) (h : e.request.ctxSeg = none) :
    afterAttempt e = AfterAttemptOutcome.noop ∧
    ∀ s, afterAttempt { e with state := s } = AfterAttemptOutcome.noop := by
  obtain ⟨pl, rq, a1, w1, r1, b1, e1, s1⟩ := e
  refine ⟨?_, fun s => ?_⟩
  · simp [afterAttempt, show rq.ctxSeg = none from h]
  · simp [afterAttempt, show rq.ctxSeg = none from h]

/-- Witness for C4: an execution whose request context carries no span is
a no-op after-attempt. -/
theorem afterAttempt_no_span_noop_witness :
    afterAttempt { baseExec with request := { baseExec.request with ctxSeg := none } }
      = AfterAttemptOutcome.noop :=
  (afterAttempt_no_span_noop _ rfl).1

/-- C5 counterexample: at attempt index 0 the span the code opens is
named "Attempt:0" (from `fmt.Sprintf("Attempt:%d", e.Attempt)`), not
"Attempt[0]" as the claim states. -/
theorem beforeAttempt_name_cex :
    (match beforeAttempt baseExec with
      | BeforeAttemptOutcome.opened _ seg => some seg.name
      | _ => none) = some "Attempt:0" ∧
    some "Attempt:0" ≠ some "Attempt[0]" := by
  refine ⟨rfl, by decide⟩

/-- C5 (amended): every before-attempt event that opens an attempt span
at index i names it "Attempt:" followed by the decimal index —
deterministic in i — and parents it to the span carried by the request's
context, i.e. the execution's root span. -/
theorem beforeAttempt_span_name (e : Execution) (parent : Segment)
    (h : e.request.ctxSeg = some parent) :
    ∃ e2 seg, beforeAttempt e = BeforeAttemptOutcome.opened e2 seg ∧
      seg.name = "Attempt:" ++ toString e.attempt ∧
      seg.parentName = some parent.name := by
  simp only [beforeAttempt, beginSubsegment, h]
  exact ⟨_, _, rfl, rfl, rfl⟩

/-- Witness for C5 (amended) at attempt 0, with root span `freshSeg`. -/
theorem beforeAttempt_span_name_witness :
    (match beforeAttempt baseExec with
      | BeforeAttemptOutcome.opened _ seg => some (seg.name, seg.parentName)
      | _ => none) = some ("Attempt:0", some "example.com") := by
  obtain ⟨e2, seg, h1, h2, h3⟩ := beforeAttempt_span_name baseExec freshSeg rfl
  rw [h1]
  show some (seg.name, seg.parentName) = some ("Attempt:0", some "example.com")
  rw [h2, h3]
  rfl

/-- C6: for every execution-end event with a root span on the plan's
context, `afterExecutionEnd` closes that span with the execution's
terminal error after annotating HTTP outcome, body length, attempts =
attempt index + 1 and waves = wave index + 1; the result is independent
of the request (and hence of any still-open attempt span). -/
theorem afterExecutionEnd_closes (e : Execution) (seg : Segment)
    (h : e.plan.ctxSeg = some seg) :
    ∃ s, afterExecutionEnd e = some s ∧
      s = closeSegment
        (setSegmentExecutionMetadata
          (setSegmentBodyLen (setSegmentHTTPResponse seg e.response) e.body)
          (Int.ofNat e.attempt + 1) (Int.ofNat e.wave + 1)) e.err ∧
      s.closed = some e.err ∧
      metaLookup s "httpx" "attempts" = some (MetaValue.int (Int.ofNat e.attempt + 1)) ∧
      metaLookup s "httpx" "waves" = some (MetaValue.int (Int.ofNat e.wave + 1)) ∧
      (∀ rq, afterExecutionEnd { e with request := rq } = afterExecutionEnd e) := by
  refine ⟨_, by simp [afterExecutionEnd, h], rfl, rfl, ?_, ?_, ?_⟩
  · show metaLookup (closeSegment (setSegmentExecutionMetadata _ _ _) _) _ _ = _
    simp only [setSegmentExecutionMetadata]
    rw [show (metaLookup (closeSegment
        (addMetadataToNamespace (addMetadataToNamespace _ "httpx" "attempts" _)
          "httpx" "waves" _) e.err) "httpx" "attempts") = metaLookup
        (addMetadataToNamespace (addMetadataToNamespace
          (setSegmentBodyLen (setSegmentHTTPResponse seg e.response) e.body)
          "httpx" "attempts" (MetaValue.int (Int.ofNat e.attempt + 1)))
          "httpx" "waves" (MetaValue.int (Int.ofNat e.wave + 1))) "httpx" "attempts"
      from rfl]
    rw [metaLookup_add_other _ _ _ _ _ _ (by decide), metaLookup_add_same]
  · show metaLookup (closeSegment (setSegmentExecutionMetadata _ _ _) _) _ _ = _
    simp only [setSegmentExecutionMetadata]
    rw [show (metaLookup (closeSegment
        (addMetadataToNamespace (addMetadataToNamespace _ "httpx" "attempts" _)
          "httpx" "waves" _) e.err) "httpx" "waves") = metaLookup
        (addMetadataToNamespace (addMetadataToNamespace
          (setSegmentBodyLen (setSegmentHTTPResponse seg e.response) e.body)
          "httpx" "attempts" (MetaValue.int (Int.ofNat e.attempt + 1)))
          "httpx" "waves" (MetaValue.int (Int.ofNat e.wave + 1))) "httpx" "waves"
      from rfl]
    rw [metaLookup_add_same]
  · intro rq
    obtain ⟨pl, rq0, a1, w1, r1, b1, e1, s1⟩ := e
    rfl

/-- Witness for C6 at `baseExec` (plan context carries `freshSeg`). -/
theorem afterExecutionEnd_closes_witness :
    afterExecutionEnd baseExec
      = some (closeSegment
          (setSegmentExecutionMetadata
            (setSegmentBodyLen (setSegmentHTTPResponse freshSeg none) none)
            (Int.ofNat 0 + 1) (Int.ofNat 0 + 1)) none) := by
  obtain ⟨s, h1, h2, -⟩ := afterExecutionEnd_closes baseExec freshSeg rfl
  rw [h2] at h1
  exact h1

/-- C8: an after-plan-timeout event with a root span on the plan's
context adds exactly the boolean `httpx`/`plan_timeout` = true metadata
and changes nothing else: the span stays un-closed, every other field
and metadata key is untouched, and the outcome ignores the request and
the attempt state store; with no root span the event is a no-op. -/
theorem afterPlanTimeout_marks (e : Execution) (seg : Segment)
    (h : e.plan.ctxSeg = some seg) :
    afterPlanTimeout e
      = some (addMetadataToNamespace seg "httpx" "plan_timeout" (MetaValue.bool true)) ∧
    metaLookup (addMetadataToNamespace seg "httpx" "plan_timeout" (MetaValue.bool true))
      "httpx" "plan_timeout" = some (MetaValue.bool true) ∧
    (addMetadataToNamespace seg "httpx" "plan_timeout" (MetaValue.bool true)).closed
      = seg.closed ∧
    (addMetadataToNamespace seg "httpx" "plan_timeout" (MetaValue.bool true)).name
      = seg.name ∧
    (addMetadataToNamespace seg "httpx" "plan_timeout" (MetaValue.bool true)).error
      = seg.error ∧
    (∀ ns2 key2, (ns2, key2) ≠ ("httpx", "plan_timeout") →
      metaLookup (addMetadataToNamespace seg "httpx" "plan_timeout" (MetaValue.bool true))
        ns2 key2 = metaLookup seg ns2 key2) ∧
    (∀ rq st, afterPlanTimeout { e with request := rq, state := st }
      = afterPlanTimeout e) ∧
    (∀ e2 : Execution, e2.plan.ctxSeg = none → afterPlanTimeout e2 = none) := by
  refine ⟨by simp [afterPlanTimeout, h], metaLookup_add_same _ _ _ _, rfl, rfl, rfl,
    ?_, ?_, ?_⟩
  · intro ns2 key2 hne
    exact metaLookup_add_other _ _ _ _ _ _ hne
  · intro rq st
    obtain ⟨pl, rq0, a1, w1, r1, b1, e1, s1⟩ := e
    rfl
  · intro e2 h2
    simp [afterPlanTimeout, h2]

/-- Witness for C8 at `baseExec`: the metadata is added, the looked-up
value is the boolean true, and the span remains open. -/
theorem afterPlanTimeout_marks_witness :
    afterPlanTimeout baseExec
      = some (addMetadataToNamespace freshSeg "httpx" "plan_timeout" (MetaValue.bool true)) ∧
    metaLookup (addMetadataToNamespace freshSeg "httpx" "plan_timeout" (MetaValue.bool true))
      "httpx" "plan_timeout" = some (MetaValue.bool true) ∧
    (addMetadataToNamespace freshSeg "httpx" "plan_timeout" (MetaValue.bool true)).closed
      = none := by
  have h := afterPlanTimeout_marks baseExec freshSeg rfl
  exact ⟨h.1, h.2.1, h.2.2.1⟩

/-- C10: every attempt span that before-attempt opens records as its
request URL the rendering of the outgoing request's URL with the query
string blanked; when the query string is non-empty this differs from the
full URL rendering. -/
theorem beforeAttempt_url_stripped (e : Execution) (parent : Segment)
    (h : e.request.ctxSeg = some parent) :
    ∃ e2 seg, beforeAttempt e = BeforeAttemptOutcome.opened e2 seg ∧
      seg.reqURL = urlString { e.request.url with rawQuery := "" } ∧
      (e.request.url.rawQuery ≠ "" → seg.reqURL ≠ urlString e.request.url) := by
  simp only [beforeAttempt, beginSubsegment, h]
  refine ⟨_, _, rfl, rfl, ?_⟩
  intro hq hEq
  have hql : 0 < e.request.url.rawQuery.length := by
    by_contra hc
    apply hq
    have hb : e.request.url.rawQuery.length = e.request.url.rawQuery.data.length := rfl
    have h0 : e.request.url.rawQuery.data = [] :=
      List.length_eq_zero.mp (by omega)
    exact String.ext h0
  have hEq2 : urlString { e.request.url with rawQuery := "" }
      = urlString e.request.url := hEq
  have hlen := congrArg String.length hEq2
  simp only [urlString, String.length_append, eq_self_iff_true, if_true,
    if_neg hq, String.length_empty] at hlen
  have h2 : ("?" : String).length = 1 := rfl
  omega

/-- Witness for C10 at `baseExec`, whose request URL carries the query
"a=1": the recorded URL is the query-stripped rendering and differs from
the full rendering. -/
theorem beforeAttempt_url_stripped_witness :
    (match beforeAttempt baseExec with
      | BeforeAttemptOutcome.opened _ seg => some seg.reqURL
      | _ => none)
      = some (urlString { baseExec.request.url with rawQuery := "" }) ∧
    urlString { baseExec.request.url with rawQuery := "" }
      ≠ urlString baseExec.request.url := by
  obtain ⟨e2, seg, h1, h2, h3⟩ := beforeAttempt_url_stripped baseExec freshSeg rfl
  refine ⟨?_, ?_⟩
  · rw [h1]
    show some seg.reqURL = some (urlString { baseExec.request.url with rawQuery := "" })
    rw [h2]
  · intro hbad
    exact h3 (by decide) (by rw [h2]; exact hbad)

end Httpxxray
